import Mathlib

/-!
Verification of the CloudPoints particle-to-texture codec.

This file gives a shallow embedding of the codec core of the repository:
`SimpleExporter.exportParticles` (encode), `TextureLoader.loadFromTextures`
(decode), `TextureGenerator.generateTextures` (the second encode path),
and `HoudiniParser` (format conversion and subsampling).

Modelling conventions:
* JavaScript numbers are modelled as exact rationals (`ℚ`); `Math.round`
  is round-half-up (`⌊q + 1/2⌋`) and `Math.floor` is `⌊q⌋`.
* An `ImageData` buffer is modelled at pixel granularity: the flat RGBA8
  byte array `data` with `data[(y*w+x)*4 + c]` becomes a list of `Pixel`
  records indexed by the pixel slot `y*w+x`.  `createImageData`
  initialises every pixel to transparent black `(0,0,0,0)`.
* Writes into a `Uint8ClampedArray` clamp the stored value to `[0,255]`.
* Wall-clock timestamps (`new Date().toISOString()`) and `console.log`
  output are I/O and are not modelled; no claim depends on them.
-/

/-- A 3-component vector of rationals, modelling the `[number,number,number]`
position and color triples of `src/types/particle.ts`. -/
structure Vec3 where
  x : ℚ
  y : ℚ
  z : ℚ
deriving DecidableEq

/-- One RGBA8 pixel of an `ImageData` buffer. -/
structure Pixel where
  r : ℕ
  g : ℕ
  b : ℕ
  a : ℕ
deriving DecidableEq

instance : Inhabited Pixel := ⟨⟨0, 0, 0, 0⟩⟩

/-- The `Particle` interface of `src/types/particle.ts`. -/
structure Particle where
  id : String
  position : Vec3
  color : Vec3
  size : Option ℚ
deriving DecidableEq

/-- Axis-aligned bounding box, the `bounds` records of the codec. -/
structure Bounds where
  bmin : Vec3
  bmax : Vec3
deriving DecidableEq

/-- An in-memory raster buffer: the `ImageData` consumed and produced by the
codec, at pixel granularity (see the module docstring). -/
structure ImageData where
  width : ℕ
  height : ℕ
  pixels : List Pixel
deriving DecidableEq

/-- The metadata record persisted by `SimpleExporter.exportParticles`
(`created` is a wall-clock timestamp, not modelled). -/
structure ExportMetadata where
  width : ℕ
  height : ℕ
  particleCount : ℕ
  bounds : Bounds
deriving DecidableEq

/-- The result of `SimpleExporter.exportParticles`: the two raster buffers
that become the position/color PNGs, plus the metadata record. -/
structure SimpleExportResult where
  posImage : ImageData
  colorImage : ImageData
  metadata : ExportMetadata
deriving DecidableEq

/-- JavaScript `Math.round`: round half up. -/
def jsRound (q : ℚ) : ℤ := ⌊q + 1/2⌋

/-- The clamp `Math.max(0, Math.min(255, z))` used on position bytes in
`simpleExporter.ts` lines 112-114; also the store-time clamping of a
`Uint8ClampedArray` for integer values. -/
def clampByte (z : ℤ) : ℕ := (max 0 (min 255 z)).toNat

/-- JavaScript `v || 1` on a number: substitutes 1 when the value is 0
(`simpleExporter.ts` lines 76-78, `textureLoader.ts` lines 56-58). -/
def jsOr1 (q : ℚ) : ℚ := if q = 0 then 1 else q

/-- Ceiling of the real square root of a natural number, modelling
`Math.ceil(Math.sqrt(n))`. -/
def jsCeilSqrt (n : ℕ) : ℕ :=
  if Nat.sqrt n * Nat.sqrt n = n then Nat.sqrt n else Nat.sqrt n + 1

/-- Texture side length computed by `simpleExporter.ts` lines 27-28 and
`textureGenerator.ts` lines 13-14:
`Math.pow(2, Math.ceil(Math.log2(Math.ceil(Math.sqrt(n)))))`.
For `n = 0` the JavaScript expression evaluates to `2^(-∞) = 0`. -/
def finalSize (particleCount : ℕ) : ℕ :=
  if particleCount = 0 then 0 else 2 ^ Nat.clog 2 (jsCeilSqrt particleCount)

namespace SimpleExporter

/-- Bounds computation of `simpleExporter.ts` lines 208-230.  The source
seeds the fold with `±Infinity` and folds `Math.min`/`Math.max` over all
particles; for a non-empty list this equals folding from the first
particle's position, which is how it is rendered here (`ℚ` has no
infinities).  The empty case returns the documented all-zero bounds. -/
def calculateBounds (particles : List Particle) : Bounds :=
  match particles with
  | [] => ⟨⟨0, 0, 0⟩, ⟨0, 0, 0⟩⟩
  | p :: rest =>
    rest.foldl
      (fun b q =>
        ⟨⟨min b.bmin.x q.position.x, min b.bmin.y q.position.y, min b.bmin.z q.position.z⟩,
         ⟨max b.bmax.x q.position.x, max b.bmax.y q.position.y, max b.bmax.z q.position.z⟩⟩)
      ⟨p.position, p.position⟩

/-- One quantized position byte of `simpleExporter.ts` lines 104-114:
`Math.max(0, Math.min(255, Math.round(((v - min) / range) * 255)))`. -/
def quantizeByte (v bmin range : ℚ) : ℕ :=
  clampByte (jsRound ((v - bmin) / range * 255))

/-- One color byte of `simpleExporter.ts` lines 118-120:
`Math.round(c * 255)`, stored through the `Uint8ClampedArray`. -/
def colorByte (c : ℚ) : ℕ := clampByte (jsRound (c * 255))

/-- The encode path `SimpleExporter.exportParticles` (lines 22-156).
Per-pixel rendering of the two `createImageData` buffers: pixel slot `i`
holds particle `i`'s quantized data when `i < particles.length` and stays
at the transparent-black initialisation `(0,0,0,0)` otherwise.  The
position of particle `i` is Y-flipped and quantized against the
Y-inverted bounds; the metadata records the ORIGINAL bounds. -/
def exportParticles (particles : List Particle) : SimpleExportResult :=
  let particleCount := particles.length
  let size := finalSize particleCount
  let originalBounds := calculateBounds particles
  let bounds : Bounds :=
    ⟨⟨originalBounds.bmin.x, -originalBounds.bmax.y, originalBounds.bmin.z⟩,
     ⟨originalBounds.bmax.x, -originalBounds.bmin.y, originalBounds.bmax.z⟩⟩
  let range : Vec3 :=
    ⟨jsOr1 (bounds.bmax.x - bounds.bmin.x),
     jsOr1 (bounds.bmax.y - bounds.bmin.y),
     jsOr1 (bounds.bmax.z - bounds.bmin.z)⟩
  let posPixels : List Pixel :=
    (List.range (size * size)).map fun i =>
      match particles[i]? with
      | some particle =>
        let exportPosition : Vec3 :=
          ⟨particle.position.x, -particle.position.y, particle.position.z⟩
        ⟨quantizeByte exportPosition.x bounds.bmin.x range.x,
         quantizeByte exportPosition.y bounds.bmin.y range.y,
         quantizeByte exportPosition.z bounds.bmin.z range.z, 255⟩
      | none => ⟨0, 0, 0, 0⟩
  let colorPixels : List Pixel :=
    (List.range (size * size)).map fun i =>
      match particles[i]? with
      | some particle =>
        ⟨colorByte particle.color.x, colorByte particle.color.y,
         colorByte particle.color.z, 255⟩
      | none => ⟨0, 0, 0, 0⟩
  { posImage := ⟨size, size, posPixels⟩
    colorImage := ⟨size, size, colorPixels⟩
    metadata := ⟨size, size, particleCount, originalBounds⟩ }

end SimpleExporter

/-- One step of the in-place Fisher-Yates pass of `textureLoader.ts` line 75:
`[arr[i], arr[j]] = [arr[j], arr[i]]` — read both slots, then write them
back exchanged.  Out-of-range indices leave the list unchanged (never hit
by the decode loop, whose indices are always in range). -/
def listSwap (l : List ℕ) (i j : ℕ) : List ℕ :=
  match l[i]?, l[j]? with
  | some a, some b => (l.set i b).set j a
  | _, _ => l

/-- One iteration of the shuffle loop of `textureLoader.ts` lines 73-76:
`j = Math.floor(((seed + i*17) % 10000) / 10000 * (i+1))`, then swap.
In exact arithmetic the floor equals natural division by 10000. -/
def jsShuffleStep (seed : ℕ) (l : List ℕ) (i : ℕ) : List ℕ :=
  listSwap l i ((seed + i * 17) % 10000 * (i + 1) / 10000)

/-- The full shuffle loop: `for (let i = len-1; i > 0; i--)`. -/
def jsShuffle (seed : ℕ) (l : List ℕ) : List ℕ :=
  ((List.range (l.length - 1)).reverse).foldl
    (fun acc k => jsShuffleStep seed acc (k + 1)) l

namespace TextureLoader

/-- The hardcoded fallback bounds of `textureLoader.ts` lines 184-189. -/
def estimateBounds : Bounds := ⟨⟨-20, -20, -20⟩, ⟨20, 20, 20⟩⟩

/-- The deterministic pixel visiting order of `textureLoader.ts` lines
63-76: the raster-order slot list `0, 1, …, w*h-1` shuffled with seed
`w*h*1337`.  (The source stores `{x, y, pixelIndex}` records; only
`pixelIndex = (y*w+x)*4`, i.e. the slot, is ever read.) -/
def shuffledPixelOrder (width height : ℕ) : List ℕ :=
  jsShuffle (width * height * 1337) (List.range (width * height))

/-- The skip condition tested at `textureLoader.ts` lines 96-98: a pixel
slot is an empty padding slot exactly when all six normalized RGB
channels — position and color — are zero. -/
def emptySlot (pos color : ImageData) (k : ℕ) : Prop :=
  let pp := pos.pixels.getD k ⟨0, 0, 0, 0⟩
  let cp := color.pixels.getD k ⟨0, 0, 0, 0⟩
  (pp.r : ℚ) / 255 = 0 ∧ (pp.g : ℚ) / 255 = 0 ∧ (pp.b : ℚ) / 255 = 0 ∧
    (cp.r : ℚ) / 255 = 0 ∧ (cp.g : ℚ) / 255 = 0 ∧ (cp.b : ℚ) / 255 = 0

instance (pos color : ImageData) (k : ℕ) : Decidable (emptySlot pos color k) := by
  unfold emptySlot; exact inferInstance

/-- The decode loop body of `textureLoader.ts` lines 79-128, processing the
slots in shuffled order: read the RGB triples of both images, skip the
slot when all six normalized channels are zero (the `emptySlot`
condition), otherwise dequantize against `bounds`/`range`, un-invert Y,
and append a particle whose id carries the emission sequence number. -/
def loadLoop (pos color : ImageData) (bounds : Bounds) (range : Vec3) :
    List ℕ → List Particle → List Particle
  | [], particles => particles
  | k :: rest, particles =>
    if emptySlot pos color k then
      loadLoop pos color bounds range rest particles
    else
      let pp := pos.pixels.getD k ⟨0, 0, 0, 0⟩
      let cp := color.pixels.getD k ⟨0, 0, 0, 0⟩
      let normalizedPos : Vec3 := ⟨(pp.r : ℚ) / 255, (pp.g : ℚ) / 255, (pp.b : ℚ) / 255⟩
      let col : Vec3 := ⟨(cp.r : ℚ) / 255, (cp.g : ℚ) / 255, (cp.b : ℚ) / 255⟩
      let invertedPosition : Vec3 :=
        ⟨normalizedPos.x * range.x + bounds.bmin.x,
         normalizedPos.y * range.y + bounds.bmin.y,
         normalizedPos.z * range.z + bounds.bmin.z⟩
      let worldPosition : Vec3 :=
        ⟨invertedPosition.x, -invertedPosition.y, invertedPosition.z⟩
      loadLoop pos color bounds range rest
        (particles ++ [⟨"texture_particle_" ++ toString particles.length,
                        worldPosition, col, some 1⟩])

/-- The decode path `TextureLoader.loadFromTextures` (lines 21-141),
restricted to its particle output: dimension check, bounds from the
metadata when present (fallback otherwise), ranges with the `|| 1`
degenerate-axis substitution, then the shuffled-order pixel loop.  The
trailing output-metadata record (count / timestamp / source tag) is not
modelled; no claim concerns it. -/
def loadFromTextures (positionImageData colorImageData : ImageData)
    (metadata : Option ExportMetadata) : Except String (List Particle) :=
  if positionImageData.width ≠ colorImageData.width ∨
      positionImageData.height ≠ colorImageData.height then
    Except.error "Position and color textures must have the same dimensions"
  else
    let bounds := (metadata.map (·.bounds)).getD estimateBounds
    let range : Vec3 :=
      ⟨jsOr1 (bounds.bmax.x - bounds.bmin.x),
       jsOr1 (bounds.bmax.y - bounds.bmin.y),
       jsOr1 (bounds.bmax.z - bounds.bmin.z)⟩
    Except.ok (loadLoop positionImageData colorImageData bounds range
      (shuffledPixelOrder positionImageData.width positionImageData.height) [])

end TextureLoader

namespace TextureGenerator

/-- Bounds fold of `textureGenerator.ts` lines 82-94 — same `±Infinity`
seeded min/max fold as the exporter, but with no empty-collection check
(the empty case would return infinite bounds in JavaScript; it is mapped
to zeros here and is outside every claim). -/
def calculateBounds (particles : List Particle) : Bounds :=
  match particles with
  | [] => ⟨⟨0, 0, 0⟩, ⟨0, 0, 0⟩⟩
  | p :: rest =>
    rest.foldl
      (fun b q =>
        ⟨⟨min b.bmin.x q.position.x, min b.bmin.y q.position.y, min b.bmin.z q.position.z⟩,
         ⟨max b.bmax.x q.position.x, max b.bmax.y q.position.y, max b.bmax.z q.position.z⟩⟩)
      ⟨p.position, p.position⟩

/-- One position byte of `textureGenerator.ts` lines 51-60:
`Math.floor(((v - min) / range) * 255)` stored through the
`Uint8ClampedArray` (which clamps to `[0,255]`).  Note: truncation, no
explicit clamp, and no `|| 1` substitution on the range. -/
def floorPosByte (v bmin range : ℚ) : ℕ :=
  clampByte ⌊(v - bmin) / range * 255⌋

/-- One color byte of `textureGenerator.ts` lines 64-66:
`Math.floor(c * 255)` stored through the `Uint8ClampedArray`. -/
def floorColorByte (c : ℚ) : ℕ := clampByte ⌊c * 255⌋

/-- The second encode path, `TextureGenerator.generateTextures` (lines
9-80): no Y flip, floor quantization, ranges without the zero guard.
Only the two pixel buffers are modelled (the source wraps them in
canvases). -/
def generateTextures (particles : List Particle) : ImageData × ImageData :=
  let size := finalSize particles.length
  let bounds := calculateBounds particles
  let range : Vec3 :=
    ⟨bounds.bmax.x - bounds.bmin.x, bounds.bmax.y - bounds.bmin.y,
     bounds.bmax.z - bounds.bmin.z⟩
  let posPixels : List Pixel :=
    (List.range (size * size)).map fun i =>
      match particles[i]? with
      | some particle =>
        ⟨floorPosByte particle.position.x bounds.bmin.x range.x,
         floorPosByte particle.position.y bounds.bmin.y range.y,
         floorPosByte particle.position.z bounds.bmin.z range.z, 255⟩
      | none => ⟨0, 0, 0, 0⟩
  let colorPixels : List Pixel :=
    (List.range (size * size)).map fun i =>
      match particles[i]? with
      | some particle =>
        ⟨floorColorByte particle.color.x, floorColorByte particle.color.y,
         floorColorByte particle.color.z, 255⟩
      | none => ⟨0, 0, 0, 0⟩
  (⟨size, size, posPixels⟩, ⟨size, size, colorPixels⟩)

end TextureGenerator

/-- The `metadata` block of a `ParticleData` document
(`src/types/particle.ts` lines 17-29); `created` is the opaque
wall-clock timestamp, not modelled. -/
structure PDMetadata where
  count : ℕ
  source : Option String
  bounds : Option Bounds
  optimized : Option Bool
deriving DecidableEq

/-- The internal `ParticleData` document. -/
structure ParticleData where
  particles : List Particle
  metadata : Option PDMetadata
deriving DecidableEq

/-- One record of the Houdini input schema (Format-A). -/
structure HoudiniParticle where
  P : Vec3
  Cd : Vec3
deriving DecidableEq

/-- JavaScript `Array.prototype.filter` with an index-aware callback, as in
`particles.filter((_, index) => index % step === 0)`:  `a` is the index of
the head of the remaining list. -/
def filterIdx (p : ℕ → Bool) : List Particle → ℕ → List Particle
  | [], _ => []
  | x :: t, a => if p a then x :: filterIdx p t (a + 1) else filterIdx p t (a + 1)

namespace HoudiniParser

/-- `HoudiniParser.convertFromHoudini` (`houdiniParser.ts` lines 7-23):
maps each record to a particle with a synthesized id
`houdini_particle_<index>`, position from `P`, color from `Cd`, size 1. -/
def convertFromHoudini (houdiniData : List HoudiniParticle) : ParticleData :=
  { particles :=
      houdiniData.mapIdx fun index houdiniParticle =>
        ⟨"houdini_particle_" ++ toString index,
         houdiniParticle.P, houdiniParticle.Cd, some 1⟩
    metadata := some ⟨houdiniData.length, some "houdini", none, none⟩ }

/-- Bounds fold of `houdiniParser.ts` lines 100-119 (identical to the
exporter's). -/
def calculateBounds (particles : List Particle) : Bounds :=
  match particles with
  | [] => ⟨⟨0, 0, 0⟩, ⟨0, 0, 0⟩⟩
  | p :: rest =>
    rest.foldl
      (fun b q =>
        ⟨⟨min b.bmin.x q.position.x, min b.bmin.y q.position.y, min b.bmin.z q.position.z⟩,
         ⟨max b.bmax.x q.position.x, max b.bmax.y q.position.y, max b.bmax.z q.position.z⟩⟩)
      ⟨p.position, p.position⟩

/-- Natural-number model of `Math.ceil(a / b)` for positive `b`. -/
def jsCeilDiv (a b : ℕ) : ℕ := (a + b - 1) / b

/-- `HoudiniParser.optimizeForRendering` (`houdiniParser.ts` lines
124-146).  The JavaScript guard `maxParticles && length > maxParticles`
is falsy for an absent cap and for a cap of `0`, in which case no
subsampling happens.  Otherwise `step = Math.ceil(length / maxParticles)`
and the index-stride filter is applied.  Bounds are recomputed on the
retained subset and `optimized` records whether the set shrank. -/
def optimizeForRendering (data : ParticleData) (maxParticles : Option ℕ) :
    ParticleData :=
  let particles :=
    match maxParticles with
    | some m =>
      if m ≠ 0 ∧ data.particles.length > m then
        let step := jsCeilDiv data.particles.length m
        filterIdx (fun index => decide (index % step = 0)) data.particles 0
      else data.particles
    | none => data.particles
  let bounds := calculateBounds particles
  { particles := particles
    metadata := some
      ⟨particles.length, (data.metadata.bind (·.source)), some bounds,
       some (decide (particles.length < data.particles.length))⟩ }

end HoudiniParser

instance : Inhabited Particle := ⟨⟨"", ⟨0, 0, 0⟩, ⟨0, 0, 0⟩, none⟩⟩

/-- The quantization formula exactly as the specification states it (§4.2):
`byte = round(clamp((value - axisMin) / axisRange, 0, 1) * 255)` with
`axisRange = axisMax - axisMin` and `axisRange == 0` replaced by 1, using
round-half-up.  Declared from the spec's words, for comparison against
the two encode paths of the source. -/
def specQuantizeByte (v bmin bmax : ℚ) : ℕ :=
  (jsRound (max 0 (min 1 ((v - bmin) / jsOr1 (bmax - bmin))) * 255)).toNat

/-- Two particles whose Y coordinates span the range `[0, 2]`; used to
exhibit the Y-axis round-trip offset. -/
def demoPair : List Particle :=
  [⟨"a", ⟨0, 0, 0⟩, ⟨1, 1, 1⟩, some 1⟩, ⟨"b", ⟨0, 2, 0⟩, ⟨1, 1, 1⟩, some 1⟩]

/-- Two particles of which the first (position at the encode-time minimum
corner after the Y flip, black color) quantizes to the all-zero pixel
pair; used to exhibit round-trip point loss. -/
def demoLoss : List Particle :=
  [⟨"a", ⟨0, 1, 0⟩, ⟨0, 0, 0⟩, some 1⟩, ⟨"b", ⟨1, 0, 1⟩, ⟨1, 1, 1⟩, some 1⟩]

/-- The five test particles of `App.tsx` (`handleTestSimpleData`). -/
def demo5 : List Particle :=
  [⟨"test1", ⟨0, 0, 0⟩, ⟨1, 0, 0⟩, none⟩, ⟨"test2", ⟨2, 2, 0⟩, ⟨0, 1, 0⟩, none⟩,
   ⟨"test3", ⟨-2, -2, 0⟩, ⟨0, 0, 1⟩, none⟩, ⟨"test4", ⟨5, 0, 5⟩, ⟨1, 1, 0⟩, none⟩,
   ⟨"test5", ⟨-5, 0, -5⟩, ⟨1, 0, 1⟩, none⟩]

/-- Three collinear particles with positions `0, 1, 2` on every axis; the
middle one scales to `127.5` on the 0-255 ladder and separates floor
from round-half-up quantization. -/
def demo3 : List Particle :=
  [⟨"p0", ⟨0, 0, 0⟩, ⟨0, 0, 0⟩, none⟩, ⟨"p1", ⟨1, 1, 1⟩, ⟨1, 1, 1⟩, none⟩,
   ⟨"p2", ⟨2, 2, 2⟩, ⟨1, 1, 1⟩, none⟩]

/-- The two Format-A records of the spec's conversion scenario. -/
def demoHoudini : List HoudiniParticle :=
  [⟨⟨1, 2, 3⟩, ⟨1/2, 1/2, 1/2⟩⟩, ⟨⟨4, 5, 6⟩, ⟨1, 0, 0⟩⟩]

lemma clog2_two : Nat.clog 2 2 = 1 := Nat.clog_eq_one (by norm_num) (by norm_num)

lemma clog2_three : Nat.clog 2 3 = 2 := by
  have h1 : Nat.clog 2 3 ≤ 2 := (Nat.le_pow_iff_clog_le (by norm_num)).1 (by norm_num)
  have h2 : 1 < Nat.clog 2 3 := (Nat.pow_lt_iff_lt_clog (by norm_num)).1 (by norm_num)
  omega

/-- Concrete evaluation of the encoder on `demoPair`: the first particle's
Y byte is 255 (its flipped Y sits at the top of the inverted range), the
second's is 0, padding pixels stay transparent black, and the metadata
carries the original bounds `[0,2]` on Y. -/
lemma exportParticles_demoPair :
    SimpleExporter.exportParticles demoPair =
    ⟨⟨2, 2, [⟨0, 255, 0, 255⟩, ⟨0, 0, 0, 255⟩, ⟨0, 0, 0, 0⟩, ⟨0, 0, 0, 0⟩]⟩,
     ⟨2, 2, [⟨255, 255, 255, 255⟩, ⟨255, 255, 255, 255⟩, ⟨0, 0, 0, 0⟩, ⟨0, 0, 0, 0⟩]⟩,
     ⟨2, 2, 2, ⟨⟨0, 0, 0⟩, ⟨0, 2, 0⟩⟩⟩⟩ := by
  norm_num [SimpleExporter.exportParticles, SimpleExporter.calculateBounds,
    SimpleExporter.quantizeByte, SimpleExporter.colorByte, demoPair, finalSize,
    jsCeilSqrt, jsOr1, jsRound, clampByte, List.range_succ, clog2_two]
  decide

/-- Concrete evaluation of the decoder on the `demoPair` texture document
(shuffled visiting order `[0, 3, 1, 2]` for a 2×2 texture): the decoded
Y coordinates are `-2` and `0`, not the encoded `0` and `2`. -/
lemma loadFromTextures_demoPair :
    TextureLoader.loadFromTextures
      ⟨2, 2, [⟨0, 255, 0, 255⟩, ⟨0, 0, 0, 255⟩, ⟨0, 0, 0, 0⟩, ⟨0, 0, 0, 0⟩]⟩
      ⟨2, 2, [⟨255, 255, 255, 255⟩, ⟨255, 255, 255, 255⟩, ⟨0, 0, 0, 0⟩, ⟨0, 0, 0, 0⟩]⟩
      (some ⟨2, 2, 2, ⟨⟨0, 0, 0⟩, ⟨0, 2, 0⟩⟩⟩) =
    Except.ok
      [⟨"texture_particle_0", ⟨0, -2, 0⟩, ⟨1, 1, 1⟩, some 1⟩,
       ⟨"texture_particle_1", ⟨0, 0, 0⟩, ⟨1, 1, 1⟩, some 1⟩] := by
  norm_num [TextureLoader.loadFromTextures, TextureLoader.shuffledPixelOrder,
    TextureLoader.loadLoop, TextureLoader.emptySlot, jsShuffle, jsShuffleStep,
    listSwap, jsOr1, List.range_succ]
  decide

/-- C1: the spec claims that encode followed by decode (metadata preserved)
reproduces every retained point's position within `R/255` per axis — in
particular that dequantizing Y against the ORIGINAL bounds stored in the
metadata and negating restores the original Y.  It does not: decode adds
the original `minY` (instead of the encode-side inverted minimum
`-maxY`) before negating, so every decoded Y is offset by
`-(minY + maxY)`.  On `demoPair` (per-axis range `R = 2`) the points with
Y `0` and `2` decode to Y `-2` and `0`: both off by `2`, far above the
claimed bound `R/255 = 2/255`.  Colors, X and Z do come back exactly
here. -/
theorem C1_roundtrip_y_offset :
    TextureLoader.loadFromTextures (SimpleExporter.exportParticles demoPair).posImage
      (SimpleExporter.exportParticles demoPair).colorImage
      (some (SimpleExporter.exportParticles demoPair).metadata) =
    Except.ok
      [⟨"texture_particle_0", ⟨0, -2, 0⟩, ⟨1, 1, 1⟩, some 1⟩,
       ⟨"texture_particle_1", ⟨0, 0, 0⟩, ⟨1, 1, 1⟩, some 1⟩] ∧
    demoPair.map (fun p => p.position.y) = [0, 2] ∧
    2 / 255 < |(-2 : ℚ) - 0| ∧ 2 / 255 < |(0 : ℚ) - 2| := by
  refine ⟨?_, by decide, by norm_num, by norm_num⟩
  rw [exportParticles_demoPair]
  exact loadFromTextures_demoPair

/-- C2 (counterexample): the claim says every encode path produces
position bytes by round-half-up of the clamped normalized value; the
`TextureGenerator.generateTextures` path instead truncates with
`Math.floor`.  For `demo3` (bounds `[0,2]`, middle point at `1`) the
scaled value is `127.5`: the generator stores byte `127`, the spec
formula gives `128`. -/
theorem C2_floor_vs_round_counterexample :
    ((TextureGenerator.generateTextures demo3).1.pixels.getD 1 default).r = 127 ∧
    specQuantizeByte (demo3.getD 1 default).position.x
      (TextureGenerator.calculateBounds demo3).bmin.x
      (TextureGenerator.calculateBounds demo3).bmax.x = 128 ∧
    (127 : ℕ) ≠ 128 := by
  refine ⟨?_, ?_, by decide⟩
  · norm_num [TextureGenerator.generateTextures, TextureGenerator.calculateBounds,
      TextureGenerator.floorPosByte, TextureGenerator.floorColorByte, demo3,
      finalSize, jsCeilSqrt, clampByte, List.range_succ, clog2_two]
    decide
  · norm_num [specQuantizeByte, TextureGenerator.calculateBounds, demo3, jsOr1, jsRound]
    decide

/-- The `SimpleExporter` byte path agrees with the spec's Quantizer
formula for EVERY rational input: rounding then clamping to `[0,255]`
equals round-half-up of the clamped normalized value times 255, because
rounding is monotone and fixes the endpoints 0 and 255. -/
lemma quantizeByte_eq_spec (v bmin bmax : ℚ) :
    SimpleExporter.quantizeByte v bmin (jsOr1 (bmax - bmin)) = specQuantizeByte v bmin bmax := by
  unfold SimpleExporter.quantizeByte specQuantizeByte clampByte jsRound
  set t := (v - bmin) / jsOr1 (bmax - bmin) with ht
  rcases le_total t 0 with h0 | h0
  · have hmax : max 0 (min 1 t) = 0 := by
      rw [min_eq_right (h0.trans (by norm_num))]
      exact max_eq_left h0
    rw [hmax]
    have hfl : ⌊t * 255 + 1/2⌋ ≤ 0 := by
      have hle : t * 255 + 1/2 ≤ 1/2 := by nlinarith
      calc ⌊t * 255 + 1/2⌋ ≤ ⌊(1 : ℚ)/2⌋ := Int.floor_le_floor hle
        _ = 0 := by norm_num
    rw [min_eq_right (hfl.trans (by norm_num)), max_eq_left hfl]
    norm_num
  · rcases le_total 1 t with h1 | h1
    · have hmax : max 0 (min 1 t) = 1 := by
        rw [min_eq_left h1]
        exact max_eq_right (by norm_num)
      rw [hmax]
      have hfl : (255 : ℤ) ≤ ⌊t * 255 + 1/2⌋ := by
        apply Int.le_floor.2
        push_cast
        nlinarith
      rw [min_eq_left hfl]
      norm_num
    · have hmax : max 0 (min 1 t) = t := by
        rw [min_eq_right h1]
        exact max_eq_right h0
      rw [hmax]
      have hlow : (0 : ℤ) ≤ ⌊t * 255 + 1/2⌋ := by
        apply Int.le_floor.2
        push_cast
        nlinarith
      have hhigh : ⌊t * 255 + 1/2⌋ ≤ 255 := by
        have hlt : ⌊t * 255 + 1/2⌋ < 256 := Int.floor_lt.2 (by push_cast; nlinarith)
        omega
      rw [min_eq_right hhigh, max_eq_right hlow]

/-- C2 (amended): only the `SimpleExporter` encode path computes position
bytes by the spec formula `round(clamp((v - min)/range, 0, 1) * 255)`
(with the `range == 0 → 1` substitution and round-half-up) — proved for
all rational inputs.  The `TextureGenerator` path that shares the texture
layout instead floors the scaled value (no clamp, no zero-range guard):
at the `demo3` midpoint it stores 127 where the `SimpleExporter` path and
the spec formula give 128, so the two paths do NOT round consistently. -/
theorem C2_quantizer_paths :
    (∀ v bmin bmax : ℚ,
      SimpleExporter.quantizeByte v bmin (jsOr1 (bmax - bmin)) = specQuantizeByte v bmin bmax) ∧
    ((TextureGenerator.generateTextures demo3).1.pixels.getD 1 default).r = 127 ∧
    SimpleExporter.quantizeByte (demo3.getD 1 default).position.x 0 (jsOr1 (2 - 0)) = 128 := by
  refine ⟨quantizeByte_eq_spec, ?_, ?_⟩
  · norm_num [TextureGenerator.generateTextures, TextureGenerator.calculateBounds,
      TextureGenerator.floorPosByte, TextureGenerator.floorColorByte, demo3,
      finalSize, jsCeilSqrt, clampByte, List.range_succ, clog2_two]
    decide
  · norm_num [SimpleExporter.quantizeByte, demo3, jsOr1, jsRound, clampByte]
    decide

/-- C3 (counterexample): the claim says unused pixels hold exactly
`(0,0,0,255)`.  The exported buffers are fresh `createImageData` buffers,
whose pixels are initialised to transparent black and never touched for
`i ≥ particleCount`; the `fillRect('black')` on the canvas is overwritten
by `putImageData`.  Encoding the 2-particle `demoPair` into a 2×2 texture
leaves padding pixel 2 at `(0,0,0,0)` — alpha 0, not 255. -/
theorem C3_padding_alpha_counterexample :
    (SimpleExporter.exportParticles demoPair).posImage.pixels.getD 2 default = ⟨0, 0, 0, 0⟩ ∧
    (SimpleExporter.exportParticles demoPair).colorImage.pixels.getD 2 default = ⟨0, 0, 0, 0⟩ ∧
    demoPair.length ≤ 2 ∧
    (⟨0, 0, 0, 0⟩ : Pixel) ≠ ⟨0, 0, 0, 255⟩ := by
  rw [exportParticles_demoPair]
  refine ⟨by decide, by decide, by decide, by decide⟩

lemma exportParticles_padding_pixel (ps : List Particle) (i : ℕ)
    (hlen : ps.length ≤ i) (hsz : i < finalSize ps.length * finalSize ps.length) :
    (SimpleExporter.exportParticles ps).posImage.pixels[i]? = some ⟨0, 0, 0, 0⟩ ∧
    (SimpleExporter.exportParticles ps).colorImage.pixels[i]? = some ⟨0, 0, 0, 0⟩ := by
  have hnone : ps[i]? = none := List.getElem?_eq_none hlen
  constructor <;>
  · simp only [SimpleExporter.exportParticles]
    rw [List.getElem?_map, List.getElem?_range hsz]
    simp [hnone]

/-- C3 (amended): every unused pixel (raster index `i ≥ particleCount`)
of BOTH encode output images holds exactly `(0,0,0,0)` — transparent
black from the `createImageData` initialisation: padding RGB is all-zero
but padding alpha is 0, not 255 (only occupied pixels get alpha 255). -/
theorem C3_padding_pixels : ∀ (ps : List Particle) (i : ℕ),
    ps.length ≤ i → i < finalSize ps.length * finalSize ps.length →
    (SimpleExporter.exportParticles ps).posImage.pixels[i]? = some ⟨0, 0, 0, 0⟩ ∧
    (SimpleExporter.exportParticles ps).colorImage.pixels[i]? = some ⟨0, 0, 0, 0⟩ := by
  intro ps i hlen hsz
  exact exportParticles_padding_pixel ps i hlen hsz

/-- Witness for `C3_padding_pixels` at the concrete input `demoPair`,
pixel slot 2 of the 2×2 texture. -/
theorem C3_padding_pixels_witness :
    demoPair.length ≤ 2 ∧ 2 < finalSize demoPair.length * finalSize demoPair.length ∧
    (SimpleExporter.exportParticles demoPair).posImage.pixels[2]? = some ⟨0, 0, 0, 0⟩ ∧
    (SimpleExporter.exportParticles demoPair).colorImage.pixels[2]? = some ⟨0, 0, 0, 0⟩ := by
  have h1 : demoPair.length ≤ 2 := by decide
  have h2 : 2 < finalSize demoPair.length * finalSize demoPair.length := by
    norm_num [demoPair, finalSize, jsCeilSqrt, clog2_two]
  obtain ⟨ha, hb⟩ := C3_padding_pixels demoPair 2 h1 h2
  exact ⟨h1, h2, ha, hb⟩

/-- Concrete evaluation of the encoder on `demoLoss`: the first particle
(minimum corner after the Y flip, black color) quantizes to the all-zero
RGB triple in BOTH images, indistinguishable from padding. -/
lemma exportParticles_demoLoss :
    SimpleExporter.exportParticles demoLoss =
    ⟨⟨2, 2, [⟨0, 0, 0, 255⟩, ⟨255, 255, 255, 255⟩, ⟨0, 0, 0, 0⟩, ⟨0, 0, 0, 0⟩]⟩,
     ⟨2, 2, [⟨0, 0, 0, 255⟩, ⟨255, 255, 255, 255⟩, ⟨0, 0, 0, 0⟩, ⟨0, 0, 0, 0⟩]⟩,
     ⟨2, 2, 2, ⟨⟨0, 0, 0⟩, ⟨1, 1, 1⟩⟩⟩⟩ := by
  norm_num [SimpleExporter.exportParticles, SimpleExporter.calculateBounds,
    SimpleExporter.quantizeByte, SimpleExporter.colorByte, demoLoss, finalSize,
    jsCeilSqrt, jsOr1, jsRound, clampByte, List.range_succ, clog2_two]
  decide

lemma jsCeilSqrt_sq_ge (n : ℕ) : n ≤ jsCeilSqrt n * jsCeilSqrt n := by
  unfold jsCeilSqrt
  split
  · omega
  · have h2 := Nat.lt_succ_sqrt n
    exact le_of_lt (by simpa [Nat.succ_eq_add_one] using h2)

lemma le_finalSize_sq (n : ℕ) : n ≤ finalSize n * finalSize n := by
  unfold finalSize
  split
  · omega
  · have h1 : jsCeilSqrt n ≤ 2 ^ Nat.clog 2 (jsCeilSqrt n) :=
      Nat.le_pow_clog (by norm_num) _
    exact le_trans (jsCeilSqrt_sq_ge n) (Nat.mul_le_mul h1 h1)

/-- Concrete evaluation of the encoder on the five `App.tsx` test
particles: a 4×4 texture with the first five slots occupied. -/
lemma exportParticles_demo5 :
    SimpleExporter.exportParticles demo5 =
    ⟨⟨4, 4, [⟨128, 128, 128, 255⟩, ⟨179, 0, 128, 255⟩, ⟨77, 255, 128, 255⟩,
             ⟨255, 128, 255, 255⟩, ⟨0, 128, 0, 255⟩, ⟨0, 0, 0, 0⟩, ⟨0, 0, 0, 0⟩,
             ⟨0, 0, 0, 0⟩, ⟨0, 0, 0, 0⟩, ⟨0, 0, 0, 0⟩, ⟨0, 0, 0, 0⟩, ⟨0, 0, 0, 0⟩,
             ⟨0, 0, 0, 0⟩, ⟨0, 0, 0, 0⟩, ⟨0, 0, 0, 0⟩, ⟨0, 0, 0, 0⟩]⟩,
     ⟨4, 4, [⟨255, 0, 0, 255⟩, ⟨0, 255, 0, 255⟩, ⟨0, 0, 255, 255⟩, ⟨255, 255, 0, 255⟩,
             ⟨255, 0, 255, 255⟩, ⟨0, 0, 0, 0⟩, ⟨0, 0, 0, 0⟩, ⟨0, 0, 0, 0⟩, ⟨0, 0, 0, 0⟩,
             ⟨0, 0, 0, 0⟩, ⟨0, 0, 0, 0⟩, ⟨0, 0, 0, 0⟩, ⟨0, 0, 0, 0⟩, ⟨0, 0, 0, 0⟩,
             ⟨0, 0, 0, 0⟩, ⟨0, 0, 0, 0⟩]⟩,
     ⟨4, 4, 5, ⟨⟨-5, -2, -5⟩, ⟨5, 2, 5⟩⟩⟩⟩ := by
  norm_num [SimpleExporter.exportParticles, SimpleExporter.calculateBounds,
    SimpleExporter.quantizeByte, SimpleExporter.colorByte, demo5, finalSize,
    jsCeilSqrt, jsOr1, jsRound, clampByte, List.range_succ, clog2_three]
  decide

/-- C6: both encode output images are square with side
`finalSize n = 2^ceil(log2(ceil(sqrt(n))))`, which is large enough to
hold all `n` points; encoding the five `App.tsx` test points produces a
4×4 pair with 16 pixel slots of which 11 are unoccupied (all-zero RGB in
both images). -/
theorem C6_texture_dimensions :
    (∀ ps : List Particle, ps ≠ [] →
      (SimpleExporter.exportParticles ps).posImage.width = finalSize ps.length ∧
      (SimpleExporter.exportParticles ps).posImage.height = finalSize ps.length ∧
      (SimpleExporter.exportParticles ps).colorImage.width = finalSize ps.length ∧
      (SimpleExporter.exportParticles ps).colorImage.height = finalSize ps.length ∧
      finalSize ps.length = 2 ^ Nat.clog 2 (jsCeilSqrt ps.length) ∧
      ps.length ≤ finalSize ps.length * finalSize ps.length) ∧
    (finalSize 5 = 4 ∧
     (SimpleExporter.exportParticles demo5).posImage.pixels.length = 16 ∧
     (List.range 16).countP
       (fun k => decide (TextureLoader.emptySlot (SimpleExporter.exportParticles demo5).posImage
         (SimpleExporter.exportParticles demo5).colorImage k)) = 11) := by
  constructor
  · intro ps hne
    have hn : ps.length ≠ 0 := by simpa [List.length_eq_zero] using hne
    refine ⟨rfl, rfl, rfl, rfl, ?_, le_finalSize_sq ps.length⟩
    unfold finalSize
    rw [if_neg hn]
  · refine ⟨?_, ?_, ?_⟩
    · norm_num [finalSize, jsCeilSqrt, clog2_three]
    · rw [exportParticles_demo5]
      rfl
    · rw [exportParticles_demo5]
      simp [List.range_succ, List.countP_cons, TextureLoader.emptySlot]

/-- Witness for `C6_texture_dimensions` at the non-empty input `demo5`. -/
theorem C6_texture_dimensions_witness :
    demo5 ≠ [] ∧
    (SimpleExporter.exportParticles demo5).posImage.width = finalSize demo5.length := by
  exact ⟨by decide, (C6_texture_dimensions.1 demo5 (by decide)).1⟩

lemma get_cons_set_perm {α : Type _} :
    ∀ (l : List α) (m : ℕ) (hm : m < l.length) (a : α),
      (l[m] :: l.set m a).Perm (a :: l)
  | [], m, hm, _ => absurd hm (by simp)
  | x :: t, 0, _, a => by
    simp only [List.getElem_cons_zero, List.set_cons_zero]
    exact List.Perm.swap a x t
  | x :: t, m + 1, hm, a => by
    have hm' : m < t.length := by simpa using hm
    simp only [List.getElem_cons_succ, List.set_cons_succ]
    exact (List.Perm.swap x _ _).trans
      (((get_cons_set_perm t m hm' a).cons x).trans (List.Perm.swap a x t))

/-- Exchanging two in-range positions of a list is a permutation. -/
lemma set_set_perm {α : Type _} :
    ∀ (l : List α) (i j : ℕ) (hi : i < l.length) (hj : j < l.length),
      ((l.set i l[j]).set j l[i]).Perm l
  | [], _, _, hi, _ => absurd hi (by simp)
  | x :: t, 0, 0, _, _ => by simp
  | x :: t, 0, j + 1, hi, hj => by
    have hj' : j < t.length := by simpa using hj
    simp only [List.getElem_cons_succ, List.getElem_cons_zero, List.set_cons_zero,
      List.set_cons_succ]
    exact get_cons_set_perm t j hj' x
  | x :: t, i + 1, 0, hi, hj => by
    have hi' : i < t.length := by simpa using hi
    simp only [List.getElem_cons_zero, List.getElem_cons_succ, List.set_cons_succ,
      List.set_cons_zero]
    exact get_cons_set_perm t i hi' x
  | x :: t, i + 1, j + 1, hi, hj => by
    have hi' : i < t.length := by simpa using hi
    have hj' : j < t.length := by simpa using hj
    simp only [List.getElem_cons_succ, List.set_cons_succ]
    exact (set_set_perm t i j hi' hj').cons x

lemma listSwap_perm (l : List ℕ) (i j : ℕ) : (listSwap l i j).Perm l := by
  unfold listSwap
  split
  next a b ha hb =>
    obtain ⟨hi, rfl⟩ := List.getElem?_eq_some.1 ha
    obtain ⟨hj, rfl⟩ := List.getElem?_eq_some.1 hb
    exact set_set_perm l i j hi hj
  next => exact List.Perm.refl l

lemma foldl_shuffleStep_perm (seed : ℕ) :
    ∀ (ks : List ℕ) (acc l0 : List ℕ), acc.Perm l0 →
      (ks.foldl (fun a k => jsShuffleStep seed a (k + 1)) acc).Perm l0
  | [], _, _, h => h
  | k :: ks, acc, l0, h => by
    rw [List.foldl_cons]
    exact foldl_shuffleStep_perm seed ks _ l0 ((listSwap_perm _ _ _).trans h)

/-- The decode-side Fisher-Yates pass always produces a rearrangement of
its input list, whatever the seed. -/
lemma jsShuffle_perm (seed : ℕ) (l : List ℕ) : (jsShuffle seed l).Perm l := by
  unfold jsShuffle
  exact foldl_shuffleStep_perm seed _ l l (List.Perm.refl l)

/-- C5: the decode visiting order for an `s × s` texture — the Fisher-Yates
pass from `i = s*s-1` down to 1 with
`j = floor(((s*s*1337 + i*17) mod 10000) / 10000 * (i+1))`, which is what
`shuffledPixelOrder s s` computes — is a permutation of the raster slots
`0 … s*s-1` and visits every pixel coordinate exactly once (no
duplicates).  It is a function of `s` alone by construction. -/
theorem C5_decode_order_is_permutation (s : ℕ) :
    (TextureLoader.shuffledPixelOrder s s).Perm (List.range (s * s)) ∧
    (TextureLoader.shuffledPixelOrder s s).Nodup := by
  have hperm : (TextureLoader.shuffledPixelOrder s s).Perm (List.range (s * s)) := by
    unfold TextureLoader.shuffledPixelOrder
    exact jsShuffle_perm (s * s * 1337) (List.range (s * s))
  exact ⟨hperm, hperm.nodup_iff.2 (List.nodup_range _)⟩

lemma exportParticles_pixels_length (ps : List Particle) :
    (SimpleExporter.exportParticles ps).posImage.pixels.length =
      finalSize ps.length * finalSize ps.length ∧
    (SimpleExporter.exportParticles ps).colorImage.pixels.length =
      finalSize ps.length * finalSize ps.length := by
  constructor <;> simp [SimpleExporter.exportParticles]

/-- Every pixel slot at or beyond the particle count of an encode output
satisfies the decode skip condition (both RGB triples all-zero). -/
lemma emptySlot_of_padding (ps : List Particle) (k : ℕ) (hk : ps.length ≤ k) :
    TextureLoader.emptySlot (SimpleExporter.exportParticles ps).posImage
      (SimpleExporter.exportParticles ps).colorImage k := by
  have hpix : (SimpleExporter.exportParticles ps).posImage.pixels.getD k ⟨0, 0, 0, 0⟩ =
      ⟨0, 0, 0, 0⟩ ∧
      (SimpleExporter.exportParticles ps).colorImage.pixels.getD k ⟨0, 0, 0, 0⟩ =
      ⟨0, 0, 0, 0⟩ := by
    by_cases hN : k < finalSize ps.length * finalSize ps.length
    · obtain ⟨h1, h2⟩ := exportParticles_padding_pixel ps k hk hN
      rw [List.getD_eq_getElem?_getD, List.getD_eq_getElem?_getD, h1, h2]
      exact ⟨rfl, rfl⟩
    · have hlen := exportParticles_pixels_length ps
      rw [List.getD_eq_getElem?_getD, List.getD_eq_getElem?_getD,
        List.getElem?_eq_none (by omega), List.getElem?_eq_none (by omega)]
      exact ⟨rfl, rfl⟩
  unfold TextureLoader.emptySlot
  rw [hpix.1, hpix.2]
  norm_num

/-- The number of particles emitted by the decode loop is the number of
processed slots that fail the skip condition. -/
lemma loadLoop_length (pos color : ImageData) (bounds : Bounds) (range : Vec3) :
    ∀ (slots : List ℕ) (acc : List Particle),
      (TextureLoader.loadLoop pos color bounds range slots acc).length =
      acc.length + slots.countP (fun k => !decide (TextureLoader.emptySlot pos color k))
  | [], acc => by simp [TextureLoader.loadLoop]
  | k :: rest, acc => by
    by_cases h : TextureLoader.emptySlot pos color k
    · rw [TextureLoader.loadLoop, if_pos h,
        loadLoop_length pos color bounds range rest acc]
      simp [List.countP_cons, h]
    · rw [TextureLoader.loadLoop, if_neg h,
        loadLoop_length pos color bounds range rest _]
      simp [List.countP_cons, h]
      omega

/-- A successful decode emits exactly one particle per pixel slot whose
RGB triples are not both all-zero (the shuffle being a permutation of the
raster slots). -/
lemma loadFromTextures_length (pos color : ImageData) (meta : Option ExportMetadata)
    (l : List Particle) (hw : pos.width = color.width) (hh : pos.height = color.height)
    (hok : TextureLoader.loadFromTextures pos color meta = Except.ok l) :
    l.length = (List.range (pos.width * pos.height)).countP
      (fun k => !decide (TextureLoader.emptySlot pos color k)) := by
  unfold TextureLoader.loadFromTextures at hok
  rw [if_neg (by simp [hw, hh])] at hok
  simp only [Except.ok.injEq] at hok
  subst hok
  rw [loadLoop_length]
  have hperm : (TextureLoader.shuffledPixelOrder pos.width pos.height).Perm
      (List.range (pos.width * pos.height)) := by
    unfold TextureLoader.shuffledPixelOrder
    exact jsShuffle_perm _ _
  simpa using hperm.countP_eq _

lemma countP_range_le (N n : ℕ) (p : ℕ → Bool) (hn : n ≤ N)
    (hfalse : ∀ k, n ≤ k → p k = false) : (List.range N).countP p ≤ n := by
  have hsplit : N = n + (N - n) := by omega
  rw [hsplit, List.range_add, List.countP_append]
  have h2 : ((List.range (N - n)).map (n + ·)).countP p = 0 := by
    rw [List.countP_map]
    apply List.countP_eq_zero.2
    intro a _
    simp [Function.comp, hfalse (n + a) (by omega)]
  have h1 : (List.range n).countP p ≤ n := by
    calc (List.range n).countP p ≤ (List.range n).length := List.countP_le_length p
      _ = n := List.length_range n
  omega

/-- C4: a successful decode emits exactly one particle per pixel index at
which the position-image and color-image RGB triples are not both
all-zero (for any image pair of matching dimensions, any metadata); and
on a texture document produced by `exportParticles` the emitted count
never exceeds the `particleCount` recorded in its metadata. -/
theorem C4_occupancy :
    (∀ (pos color : ImageData) (meta : Option ExportMetadata) (l : List Particle),
      pos.width = color.width → pos.height = color.height →
      TextureLoader.loadFromTextures pos color meta = Except.ok l →
      l.length = (List.range (pos.width * pos.height)).countP
        (fun k => !decide (TextureLoader.emptySlot pos color k))) ∧
    (∀ (ps : List Particle) (l : List Particle),
      TextureLoader.loadFromTextures (SimpleExporter.exportParticles ps).posImage
        (SimpleExporter.exportParticles ps).colorImage
        (some (SimpleExporter.exportParticles ps).metadata) = Except.ok l →
      l.length ≤ (SimpleExporter.exportParticles ps).metadata.particleCount) := by
  constructor
  · exact loadFromTextures_length
  · intro ps l hok
    have hlen := loadFromTextures_length (SimpleExporter.exportParticles ps).posImage
      (SimpleExporter.exportParticles ps).colorImage
      (some (SimpleExporter.exportParticles ps).metadata) l rfl rfl hok
    have hcount : (List.range ((SimpleExporter.exportParticles ps).posImage.width *
        (SimpleExporter.exportParticles ps).posImage.height)).countP
        (fun k => !decide (TextureLoader.emptySlot (SimpleExporter.exportParticles ps).posImage
          (SimpleExporter.exportParticles ps).colorImage k)) ≤ ps.length := by
      apply countP_range_le _ _ _ ?_ ?_
      · show ps.length ≤ finalSize ps.length * finalSize ps.length
        exact le_finalSize_sq ps.length
      · intro k hk
        simp [emptySlot_of_padding ps k hk]
    exact hlen.trans_le hcount

/-- Witness for `C4_occupancy` on the concrete `demoPair` texture
document: both occupied pixels are non-zero, so decode emits exactly 2
particles, matching the occupancy count. -/
theorem C4_occupancy_witness :
    ((SimpleExporter.exportParticles demoPair).posImage.width =
      (SimpleExporter.exportParticles demoPair).colorImage.width) ∧
    (([⟨"texture_particle_0", ⟨0, -2, 0⟩, ⟨1, 1, 1⟩, some 1⟩,
       ⟨"texture_particle_1", ⟨0, 0, 0⟩, ⟨1, 1, 1⟩, some 1⟩] : List Particle).length =
      (List.range ((SimpleExporter.exportParticles demoPair).posImage.width *
        (SimpleExporter.exportParticles demoPair).posImage.height)).countP
        (fun k => !decide (TextureLoader.emptySlot (SimpleExporter.exportParticles demoPair).posImage
          (SimpleExporter.exportParticles demoPair).colorImage k))) := by
  refine ⟨rfl, ?_⟩
  apply C4_occupancy.1 (SimpleExporter.exportParticles demoPair).posImage
    (SimpleExporter.exportParticles demoPair).colorImage
    (some (SimpleExporter.exportParticles demoPair).metadata) _ rfl rfl
  rw [exportParticles_demoPair]
  exact loadFromTextures_demoPair

/-- Index-characterisation of the JavaScript index-stride filter
`filter((_, index) => index % s === 0)` started at index `a`: the `j`-th
retained element sits at source offset `j*s` plus the distance from `a`
to the next multiple of `s`. -/
lemma filterIdx_getElem? (s : ℕ) (hs : 0 < s) :
    ∀ (l : List Particle) (a j : ℕ),
      (filterIdx (fun i => decide (i % s = 0)) l a)[j]? = l[j * s + (s - a % s) % s]?
  | [], a, j => by simp [filterIdx]
  | x :: t, a, j => by
    by_cases ha : a % s = 0
    · rw [filterIdx, if_pos (by simpa using ha)]
      have hoff : (s - a % s) % s = 0 := by rw [ha]; simp [Nat.mod_self]
      cases j with
      | zero => simp [hoff]
      | succ m =>
        have hoffs : (s - (a + 1) % s) % s = s - 1 := by
          have K : (a + 1) % s = 1 % s := by rw [← Nat.mod_add_mod, ha]
          rw [K]
          rcases Nat.lt_or_ge 1 s with h1 | h1
          · rw [Nat.mod_eq_of_lt h1, Nat.mod_eq_of_lt (by omega)]
          · have hs1 : s = 1 := by omega
            subst hs1
            rfl
        rw [List.getElem?_cons_succ, filterIdx_getElem? s hs t (a + 1) m, hoffs, hoff]
        have hidx : (m + 1) * s + 0 = (m * s + (s - 1)) + 1 := by
          have hms : (m + 1) * s = m * s + s := by ring
          omega
        rw [hidx, List.getElem?_cons_succ]
    · rw [filterIdx, if_neg (by simpa using ha), filterIdx_getElem? s hs t (a + 1) j]
      have hr : a % s < s := Nat.mod_lt a hs
      have hoffR : (s - a % s) % s = s - a % s := Nat.mod_eq_of_lt (by omega)
      have K : (a + 1) % s = (a % s + 1) % s := (Nat.mod_add_mod a s 1).symm
      rcases Nat.lt_or_ge (a % s + 1) s with hc | hc
      · have hmod : (a + 1) % s = a % s + 1 := by rw [K]; exact Nat.mod_eq_of_lt hc
        have hoff2 : (s - (a % s + 1)) % s = s - (a % s + 1) := Nat.mod_eq_of_lt (by omega)
        rw [hmod, hoff2, hoffR]
        have hidx : j * s + (s - a % s) = (j * s + (s - (a % s + 1))) + 1 := by omega
        rw [hidx, List.getElem?_cons_succ]
      · have hceq : a % s + 1 = s := by omega
        have hmod : (a + 1) % s = 0 := by rw [K, hceq, Nat.mod_self]
        rw [hmod, hoffR]
        simp only [Nat.sub_zero, Nat.mod_self]
        have hidx : j * s + (s - a % s) = (j * s + 0) + 1 := by omega
        rw [hidx, List.getElem?_cons_succ, Nat.add_zero]

/-- From index 0 the stride filter retains exactly the elements at source
indices `0, s, 2s, …`, in order. -/
lemma filterIdx_stride_getElem? (s : ℕ) (hs : 0 < s) (l : List Particle) (j : ℕ) :
    (filterIdx (fun i => decide (i % s = 0)) l 0)[j]? = l[j * s]? := by
  have h := filterIdx_getElem? s hs l 0 j
  simpa [Nat.mod_self] using h

lemma jsCeilDiv_mul_ge (L m : ℕ) (hm : 0 < m) : L ≤ m * HoudiniParser.jsCeilDiv L m := by
  unfold HoudiniParser.jsCeilDiv
  have h := Nat.lt_mul_div_succ (L + m - 1) hm
  have h2 : m * ((L + m - 1) / m + 1) = m * ((L + m - 1) / m) + m := by ring
  omega

lemma optimize_subsample_particles (d : ParticleData) (m : ℕ) (hm : 0 < m)
    (hlt : m < d.particles.length) :
    (HoudiniParser.optimizeForRendering d (some m)).particles =
      filterIdx (fun index => decide (index % HoudiniParser.jsCeilDiv d.particles.length m = 0))
        d.particles 0 := by
  unfold HoudiniParser.optimizeForRendering
  simp only []
  rw [if_pos ⟨by omega, hlt⟩]

/-- C7 (amended): for a POSITIVE cap `m` the subsampler behaves as
claimed — if `m < L` it retains exactly the points at source indices
`0, step, 2·step, …` with `step = ceil(L/m)` (order preserved), keeping
at least 1 and at most `m` points, and if `L ≤ m` it returns the input
point list unchanged with `optimized = false`.  (For the JavaScript-falsy
cap `m = 0` the guard `maxParticles && …` skips subsampling entirely,
which contradicts the claim's unrestricted "cap M"; see the
counterexample.) -/
theorem C7_subsampler :
    (∀ (d : ParticleData) (m : ℕ), 1 ≤ m → m < d.particles.length →
      (∀ j : ℕ, (HoudiniParser.optimizeForRendering d (some m)).particles[j]? =
        d.particles[j * HoudiniParser.jsCeilDiv d.particles.length m]?) ∧
      (HoudiniParser.optimizeForRendering d (some m)).particles.length ≤ m ∧
      1 ≤ (HoudiniParser.optimizeForRendering d (some m)).particles.length) ∧
    (∀ (d : ParticleData) (m : ℕ), d.particles.length ≤ m →
      (HoudiniParser.optimizeForRendering d (some m)).particles = d.particles ∧
      (HoudiniParser.optimizeForRendering d (some m)).metadata =
        some ⟨d.particles.length, d.metadata.bind (fun md => md.source),
          some (HoudiniParser.calculateBounds d.particles), some false⟩) := by
  constructor
  · intro d m hm hlt
    set L := d.particles.length with hL
    set s := HoudiniParser.jsCeilDiv L m with hsdef
    have hspos : 0 < s := by
      rw [hsdef]
      unfold HoudiniParser.jsCeilDiv
      exact Nat.div_pos (by omega) (by omega)
    have hchar : ∀ j : ℕ, (HoudiniParser.optimizeForRendering d (some m)).particles[j]? =
        d.particles[j * s]? := by
      intro j
      rw [optimize_subsample_particles d m (by omega) hlt]
      exact filterIdx_stride_getElem? s hspos d.particles j
    refine ⟨hchar, ?_, ?_⟩
    · have hnone : (HoudiniParser.optimizeForRendering d (some m)).particles[m]? = none := by
        rw [hchar m]
        apply List.getElem?_eq_none
        have hge := jsCeilDiv_mul_ge L m (by omega)
        rw [← hsdef] at hge
        omega
      have := List.getElem?_eq_none_iff.1 hnone
      omega
    · have hsome : (HoudiniParser.optimizeForRendering d (some m)).particles[0]? =
          some (d.particles.get ⟨0, by omega⟩) := by
        rw [hchar 0]
        simp [List.getElem?_eq_getElem (show 0 < L by omega)]
      by_contra hcon
      have : (HoudiniParser.optimizeForRendering d (some m)).particles[0]? = none :=
        List.getElem?_eq_none (by omega)
      rw [this] at hsome
      exact Option.noConfusion hsome
  · intro d m hle
    have hcond : ¬(m ≠ 0 ∧ d.particles.length > m) := by omega
    constructor
    · simp [HoudiniParser.optimizeForRendering, hcond]
    · simp [HoudiniParser.optimizeForRendering, hcond, lt_irrefl]

/-- Witness for `C7_subsampler` at the 3-particle input `demo3` with cap 2
(step `ceil(3/2) = 2`, retained indices 0 and 2). -/
theorem C7_subsampler_witness :
    (1 : ℕ) ≤ 2 ∧ 2 < (⟨demo3, none⟩ : ParticleData).particles.length ∧
    (HoudiniParser.optimizeForRendering ⟨demo3, none⟩ (some 2)).particles.length ≤ 2 ∧
    1 ≤ (HoudiniParser.optimizeForRendering ⟨demo3, none⟩ (some 2)).particles.length := by
  have h := C7_subsampler.1 ⟨demo3, none⟩ 2 (by decide) (by simp [demo3])
  exact ⟨by decide, by simp [demo3], h.2.1, h.2.2⟩

/-- C7 (counterexample): with cap `M = 0` and a non-empty collection the
claim demands a retained count `≤ 0`; but `maxParticles = 0` is falsy in
JavaScript, so `optimizeForRendering` skips subsampling and returns all 3
points of `demo3`. -/
theorem C7_zero_cap_counterexample :
    (HoudiniParser.optimizeForRendering ⟨demo3, none⟩ (some 0)).particles.length = 3 ∧
    ¬((HoudiniParser.optimizeForRendering ⟨demo3, none⟩ (some 0)).particles.length ≤ 0) := by
  have h : (HoudiniParser.optimizeForRendering ⟨demo3, none⟩ (some 0)).particles = demo3 := by
    simp [HoudiniParser.optimizeForRendering]
  rw [h]
  exact ⟨by simp [demo3], by simp [demo3]⟩

/-- Well-formedness of a raster buffer: each RGB byte is at most 255, as
guaranteed for real `Uint8ClampedArray` data. -/
def validBytes (img : ImageData) : Prop :=
  ∀ px ∈ img.pixels, px.r ≤ 255 ∧ px.g ≤ 255 ∧ px.b ≤ 255

instance (img : ImageData) : Decidable (validBytes img) := by
  unfold validBytes; exact inferInstance

/-- Membership of a decoded position in the fallback box `[-20,20]³`. -/
def inFallbackBox (p : Particle) : Prop :=
  (-20 ≤ p.position.x ∧ p.position.x ≤ 20) ∧
  (-20 ≤ p.position.y ∧ p.position.y ≤ 20) ∧
  (-20 ≤ p.position.z ∧ p.position.z ≤ 20)

lemma fallback_coord_bounds (b : ℕ) (hb : b ≤ 255) :
    -20 ≤ (b : ℚ) / 255 * 40 + (-20) ∧ (b : ℚ) / 255 * 40 + (-20) ≤ 20 := by
  have h0 : (0 : ℚ) ≤ (b : ℚ) / 255 := by positivity
  have h1 : (b : ℚ) / 255 ≤ 1 := by
    rw [div_le_one (by norm_num)]
    exact_mod_cast hb
  constructor <;> nlinarith

/-- Every particle the decode loop emits under the fallback bounds lies in
the fallback box, on all three axes — including the negated Y. -/
lemma loadLoop_fallback_box (pos color : ImageData) (hwf : validBytes pos) :
    ∀ (slots : List ℕ) (acc : List Particle),
      (∀ p ∈ acc, inFallbackBox p) →
      ∀ p ∈ TextureLoader.loadLoop pos color TextureLoader.estimateBounds ⟨40, 40, 40⟩ slots acc,
        inFallbackBox p
  | [], acc, hacc => by simpa [TextureLoader.loadLoop] using hacc
  | k :: rest, acc, hacc => by
    by_cases h : TextureLoader.emptySlot pos color k
    · rw [TextureLoader.loadLoop, if_pos h]
      exact loadLoop_fallback_box pos color hwf rest acc hacc
    · rw [TextureLoader.loadLoop, if_neg h]
      apply loadLoop_fallback_box pos color hwf rest
      intro p hp
      rcases List.mem_append.1 hp with hmem | hmem
      · exact hacc p hmem
      · simp only [List.mem_singleton] at hmem
        subst hmem
        have hb : (pos.pixels.getD k ⟨0, 0, 0, 0⟩).r ≤ 255 ∧
            (pos.pixels.getD k ⟨0, 0, 0, 0⟩).g ≤ 255 ∧
            (pos.pixels.getD k ⟨0, 0, 0, 0⟩).b ≤ 255 := by
          rw [List.getD_eq_getElem?_getD]
          rcases hgd : pos.pixels[k]? with _ | px
          · simp
          · obtain ⟨hlt, hpx⟩ := List.getElem?_eq_some.1 hgd
            have hmem2 : px ∈ pos.pixels := hpx ▸ List.getElem_mem hlt
            simpa using hwf px hmem2
        have hx := fallback_coord_bounds _ hb.1
        have hy := fallback_coord_bounds _ hb.2.1
        have hz := fallback_coord_bounds _ hb.2.2
        unfold inFallbackBox
        simp only [TextureLoader.estimateBounds]
        refine ⟨⟨hx.1, hx.2⟩, ⟨?_, ?_⟩, ⟨hz.1, hz.2⟩⟩
        · have h2 := hy.2
          linarith
        · have h1 := hy.1
          linarith

/-- C9: decode without metadata substitutes the hardcoded fallback bounds
`min = (-20,-20,-20)`, `max = (20,20,20)` — it behaves exactly as a
decode whose metadata carries `estimateBounds` — and every reconstructed
point lies inside `[-20,20]` on all three axes, including after the Y
un-inversion.  (The degraded-mode warning of `textureLoader.ts` line 34
is console I/O, outside the embedding.) -/
theorem C9_fallback_bounds :
    (∀ (pos color : ImageData),
      TextureLoader.loadFromTextures pos color none =
      TextureLoader.loadFromTextures pos color
        (some ⟨pos.width, pos.height, 0, TextureLoader.estimateBounds⟩)) ∧
    (∀ (pos color : ImageData) (l : List Particle), validBytes pos →
      TextureLoader.loadFromTextures pos color none = Except.ok l →
      ∀ p ∈ l, inFallbackBox p) := by
  constructor
  · intro pos color
    rfl
  · intro pos color l hwf hok
    unfold TextureLoader.loadFromTextures at hok
    split at hok
    · exact absurd hok (by simp)
    · simp only [Except.ok.injEq] at hok
      subst hok
      have hrange : (⟨jsOr1 (TextureLoader.estimateBounds.bmax.x -
            TextureLoader.estimateBounds.bmin.x),
          jsOr1 (TextureLoader.estimateBounds.bmax.y - TextureLoader.estimateBounds.bmin.y),
          jsOr1 (TextureLoader.estimateBounds.bmax.z - TextureLoader.estimateBounds.bmin.z)⟩ :
            Vec3) = ⟨40, 40, 40⟩ := by
        norm_num [TextureLoader.estimateBounds, jsOr1]
      intro p hp
      simp only [Option.map_none', Option.getD_none] at hp
      rw [hrange] at hp
      exact loadLoop_fallback_box pos color hwf _ [] (by simp) p hp

/-- Witness for `C9_fallback_bounds` on a concrete 1×1 image pair decoded
without metadata: the single particle decodes to position `(20, 20, -20)`,
inside the fallback box. -/
theorem C9_fallback_bounds_witness :
    validBytes ⟨1, 1, [⟨255, 0, 0, 255⟩]⟩ ∧
    TextureLoader.loadFromTextures ⟨1, 1, [⟨255, 0, 0, 255⟩]⟩ ⟨1, 1, [⟨9, 10, 11, 255⟩]⟩ none =
      Except.ok [⟨"texture_particle_0", ⟨20, 20, -20⟩, ⟨9/255, 10/255, 11/255⟩, some 1⟩] ∧
    (∀ p ∈ [(⟨"texture_particle_0", ⟨20, 20, -20⟩, ⟨9/255, 10/255, 11/255⟩, some 1⟩ : Particle)],
      inFallbackBox p) := by
  have hwf : validBytes ⟨1, 1, [⟨255, 0, 0, 255⟩]⟩ := by decide
  have hok : TextureLoader.loadFromTextures ⟨1, 1, [⟨255, 0, 0, 255⟩]⟩
      ⟨1, 1, [⟨9, 10, 11, 255⟩]⟩ none =
      Except.ok [⟨"texture_particle_0", ⟨20, 20, -20⟩, ⟨9/255, 10/255, 11/255⟩, some 1⟩] := by
    norm_num [TextureLoader.loadFromTextures, TextureLoader.shuffledPixelOrder,
      TextureLoader.loadLoop, TextureLoader.emptySlot, TextureLoader.estimateBounds,
      jsShuffle, jsShuffleStep, listSwap, jsOr1, List.range_succ]
    decide
  exact ⟨hwf, hok, C9_fallback_bounds.2 _ _ _ hwf hok⟩

/-- C8 (counterexample): the claim says Format-A conversion synthesizes
ids `particle_<index>`; `convertFromHoudini` synthesizes
`houdini_particle_<index>`.  On the spec's own two-record scenario the
ids are `houdini_particle_0/1`, not `particle_0/1`. -/
theorem C8_id_prefix_counterexample :
    (HoudiniParser.convertFromHoudini demoHoudini).particles.map (fun p => p.id) =
      ["houdini_particle_0", "houdini_particle_1"] ∧
    ("houdini_particle_0" : String) ≠ "particle_0" ∧
    ("houdini_particle_1" : String) ≠ "particle_1" := by
  refine ⟨?_, by decide, by decide⟩
  simp [HoudiniParser.convertFromHoudini, demoHoudini, List.mapIdx_cons]
  exact ⟨by decide, by decide⟩

/-- C8 (amended): converting a Format-A document of `n` records yields `n`
points in order, with position from `P`, color from `Cd`, size 1.0, and
ids `houdini_particle_<index>` (not `particle_<index>`); on the
two-record scenario the ids are `houdini_particle_0`,
`houdini_particle_1` with size 1.0 each. -/
theorem C8_convert_format_a :
    (∀ (hd : List HoudiniParticle),
      (HoudiniParser.convertFromHoudini hd).particles.length = hd.length ∧
      ∀ i, ∀ h : i < hd.length,
        (HoudiniParser.convertFromHoudini hd).particles[i]? =
          some ⟨"houdini_particle_" ++ toString i, (hd.get ⟨i, h⟩).P, (hd.get ⟨i, h⟩).Cd, some 1⟩) ∧
    (HoudiniParser.convertFromHoudini demoHoudini).particles =
      [⟨"houdini_particle_0", ⟨1, 2, 3⟩, ⟨1/2, 1/2, 1/2⟩, some 1⟩,
       ⟨"houdini_particle_1", ⟨4, 5, 6⟩, ⟨1, 0, 0⟩, some 1⟩] := by
  constructor
  · intro hd
    refine ⟨by simp [HoudiniParser.convertFromHoudini], ?_⟩
    intro i h
    have hlen : i < (HoudiniParser.convertFromHoudini hd).particles.length := by
      simpa [HoudiniParser.convertFromHoudini] using h
    rw [List.getElem?_eq_getElem hlen]
    congr 1
    show (hd.mapIdx _).get ⟨i, _⟩ = _
    rw [List.get_mapIdx hd _ i h]
  · simp [HoudiniParser.convertFromHoudini, demoHoudini, List.mapIdx_cons]
    refine ⟨by decide, by decide⟩

/-- Witness for `C8_convert_format_a` at the concrete document
`demoHoudini`, index 0. -/
theorem C8_convert_format_a_witness :
    (0 : ℕ) < demoHoudini.length ∧
    (HoudiniParser.convertFromHoudini demoHoudini).particles[0]? =
      some ⟨"houdini_particle_" ++ toString 0,
        (demoHoudini.get ⟨0, by decide⟩).P, (demoHoudini.get ⟨0, by decide⟩).Cd, some 1⟩ := by
  exact ⟨by decide, (C8_convert_format_a.1 demoHoudini).2 0 (by decide)⟩

/-- C10: the encode-then-decode round trip loses points: in `demoLoss` the
particle at the per-axis encode-time minimum (after the Y flip) with
black color encodes to the all-zero pixel pair, which decode's skip rule
treats as padding.  2 particles go in (fewer than the 4 pixel slots), 1
comes out. -/
theorem C10_roundtrip_point_loss :
    demoLoss.length = 2 ∧
    (SimpleExporter.exportParticles demoLoss).posImage.pixels.length = 4 ∧
    (SimpleExporter.exportParticles demoLoss).posImage.pixels.getD 0 default = ⟨0, 0, 0, 255⟩ ∧
    (SimpleExporter.exportParticles demoLoss).colorImage.pixels.getD 0 default = ⟨0, 0, 0, 255⟩ ∧
    TextureLoader.loadFromTextures (SimpleExporter.exportParticles demoLoss).posImage
      (SimpleExporter.exportParticles demoLoss).colorImage
      (some (SimpleExporter.exportParticles demoLoss).metadata) =
    Except.ok [⟨"texture_particle_0", ⟨1, -1, 1⟩, ⟨1, 1, 1⟩, some 1⟩] ∧
    1 < demoLoss.length := by
  rw [exportParticles_demoLoss]
  refine ⟨by decide, by decide, by decide, by decide, ?_, by decide⟩
  norm_num [TextureLoader.loadFromTextures, TextureLoader.shuffledPixelOrder,
    TextureLoader.loadLoop, TextureLoader.emptySlot, jsShuffle, jsShuffleStep,
    listSwap, jsOr1, List.range_succ]
  decide
